import Mathlib

/-!
Shallow embedding of the trajectory-analysis core of the
`/trajectory/analyze` handler (backend/main.py, `analyze_trajectory`).

Floating-point NaN is modelled by `Option ℝ`: `none` stands for NaN
(NumPy's `arccos` outside `[-1, 1]`), `some x` for an ordinary value.
An analysis that raises on the Python side (empty point list: the
pandas frame has no columns, so `df['md']` raises `KeyError`) is
modelled by `analyze` returning `none`.
-/

namespace WellTest

/-- One survey point after the handler's dict conversion: `north`/`east`
have already been defaulted to 0 (`point.north or 0`). -/
structure SurveyPoint where
  md : ℝ
  tvd : ℝ
  inc : ℝ
  azi : ℝ
  north : ℝ
  east : ℝ

/-- Result record of `analyze_trajectory`.  The DLS statistics are
`Option ℝ` because the per-interval dogleg can be NaN. -/
structure TrajectoryAnalysis where
  total_length : ℝ
  total_displacement : ℝ
  max_inclination : ℝ
  max_azimuth : ℝ
  vertical_section : ℝ
  closure_distance : ℝ
  closure_azimuth : ℝ
  point_count : ℕ
  max_dls : Option ℝ
  avg_dls : Option ℝ

noncomputable section

/-- `np.radians`. -/
def radians (d : ℝ) : ℝ := d * Real.pi / 180

/-- `np.degrees`. -/
def degrees (r : ℝ) : ℝ := r * 180 / Real.pi

/-- `np.arctan2 y x` on finite reals. -/
def arctan2 (y x : ℝ) : ℝ :=
  if 0 < x then Real.arctan (y / x)
  else if x < 0 then
    (if 0 ≤ y then Real.arctan (y / x) + Real.pi else Real.arctan (y / x) - Real.pi)
  else
    (if 0 < y then Real.pi / 2 else if y < 0 then -(Real.pi / 2) else 0)

/-- `np.arccos`: NaN (`none`) outside the domain `[-1, 1]`. -/
def npArccos (x : ℝ) : Option ℝ :=
  if x < -1 ∨ 1 < x then none else some (Real.arccos x)

/-- The azimuth-delta wrap of `analyze_trajectory` (two sequential `if`s:
subtract 360 when `> 180`, then add 360 when `< -180`). -/
def wrapAzi (d : ℝ) : ℝ :=
  let d1 := if 180 < d then d - 360 else d
  if d1 < -180 then d1 + 360 else d1

/-- The argument passed to `np.arccos` in the per-interval dogleg
computation (note the `+` sign, transcribed from the source). -/
def doglegArg (prev curr : SurveyPoint) : ℝ :=
  Real.cos (radians (curr.inc - prev.inc)) +
    Real.sin (radians prev.inc) * Real.sin (radians curr.inc) *
      (1 - Real.cos (radians (wrapAzi (curr.azi - prev.azi))))

/-- One interval's dogleg severity per 100 length units:
`dls = arccos(...) * 180 / pi`, then `(dls / delta_md) * 100`. -/
def intervalDLS (prev curr : SurveyPoint) : Option ℝ :=
  (npArccos (doglegArg prev curr)).map
    (fun a => a * 180 / Real.pi / (curr.md - prev.md) * 100)

/-- The DLS series: the loop `for i in range(1, len(df))`, appending an
entry only when `delta_md > 0`. -/
def dlsSeries : List SurveyPoint → List (Option ℝ)
  | p :: q :: rest =>
      (if 0 < q.md - p.md then [intervalDLS p q] else []) ++ dlsSeries (q :: rest)
  | _ => []

/-- Column maximum, `df[col].max()` (only used on non-empty frames). -/
def colMax (f : SurveyPoint → ℝ) : List SurveyPoint → ℝ
  | [] => 0
  | p :: ps => (ps.map f).foldl max (f p)

/-- The last row, `df.iloc[-1]`. -/
def lastPoint (p : SurveyPoint) (ps : List SurveyPoint) : SurveyPoint :=
  (p :: ps).getLast (List.cons_ne_nil p ps)

/-- One step of Python's builtin `max` fold.  A comparison involving
NaN (`none`) is false, so the accumulator is kept. -/
def pyMaxStep (acc y : Option ℝ) : Option ℝ :=
  match acc, y with
  | some a, some b => if a < b then some b else some a
  | _, _ => acc

/-- Python's builtin `max` over a non-empty list (first element seeds
the fold). -/
def pyMax : List (Option ℝ) → Option ℝ
  | [] => none
  | x :: xs => xs.foldl pyMaxStep x

/-- `np.mean`: NaN as soon as one entry is NaN, else sum over length. -/
def npMean (s : List (Option ℝ)) : Option ℝ :=
  if none ∈ s then none else some (s.reduceOption.sum / s.length)

/-- `max(dls_values) if dls_values else 0`. -/
def aggMax : List (Option ℝ) → Option ℝ
  | [] => some 0
  | x :: xs => pyMax (x :: xs)

/-- `np.mean(dls_values) if dls_values else 0`. -/
def aggMean : List (Option ℝ) → Option ℝ
  | [] => some 0
  | x :: xs => npMean (x :: xs)

/-- Python's `max` over a non-empty list of plain reals (helper for
stating what `pyMax` computes when no NaN is present). -/
def listMax : List ℝ → ℝ
  | [] => 0
  | x :: xs => xs.foldl max x

/-- The spec sentence's reading of `total_displacement`: the point of
maximum `md`.  Modelled from the spec words, for comparison with the
source's column-wise computation. -/
def maxMdPoint (p : SurveyPoint) (ps : List SurveyPoint) : SurveyPoint :=
  ps.foldl (fun acc q => if acc.md < q.md then q else acc) p

/-- The spec sentence's `total_displacement`: Euclidean norm of
(north, east) at the maximum-`md` row. -/
def specTotalDisplacement (p : SurveyPoint) (ps : List SurveyPoint) : ℝ :=
  Real.sqrt ((maxMdPoint p ps).north ^ 2 + (maxMdPoint p ps).east ^ 2)

/-- The `/trajectory/analyze` handler body.  `none` models the raised
`KeyError`/HTTP 500 on an empty point list. -/
def analyze : List SurveyPoint → Option TrajectoryAnalysis
  | [] => none
  | p :: ps =>
      some
        { total_length := colMax SurveyPoint.md (p :: ps)
          total_displacement :=
            Real.sqrt (colMax SurveyPoint.north (p :: ps) ^ 2 +
              colMax SurveyPoint.east (p :: ps) ^ 2)
          max_inclination := colMax SurveyPoint.inc (p :: ps)
          max_azimuth := colMax SurveyPoint.azi (p :: ps)
          vertical_section := colMax SurveyPoint.tvd (p :: ps)
          closure_distance :=
            Real.sqrt ((lastPoint p ps).north ^ 2 + (lastPoint p ps).east ^ 2)
          closure_azimuth := degrees (arctan2 (lastPoint p ps).east (lastPoint p ps).north)
          point_count := (p :: ps).length
          max_dls := aggMax (dlsSeries (p :: ps))
          avg_dls := aggMean (dlsSeries (p :: ps)) }

end

/-! Helper lemmas. -/

theorem ite_lt_eq_max (a b : ℝ) : (if a < b then b else a) = max a b := by
  rcases le_or_lt b a with h | h
  · rw [if_neg (not_lt.mpr h), max_eq_left h]
  · rw [if_pos h, max_eq_right h.le]

theorem foldl_max_spec (xs : List ℝ) (a : ℝ) :
    a ≤ xs.foldl max a ∧ (∀ y ∈ xs, y ≤ xs.foldl max a) ∧
      (xs.foldl max a = a ∨ xs.foldl max a ∈ xs) := by
  induction xs generalizing a with
  | nil => exact ⟨le_refl a, by simp, Or.inl rfl⟩
  | cons x xs ih =>
    simp only [List.foldl_cons]
    obtain ⟨h1, h2, h3⟩ := ih (max a x)
    refine ⟨le_trans (le_max_left a x) h1, ?_, ?_⟩
    · intro y hy
      rcases List.mem_cons.mp hy with rfl | hy
      · exact le_trans (le_max_right a y) h1
      · exact h2 y hy
    · rcases h3 with h | h
      · rcases max_choice a x with hc | hc
        · exact Or.inl (h.trans hc)
        · exact Or.inr (by rw [h, hc]; exact List.mem_cons_self x xs)
      · exact Or.inr (List.mem_cons_of_mem x h)

theorem colMax_isGreatest (f : SurveyPoint → ℝ) (p : SurveyPoint) (ps : List SurveyPoint) :
    IsGreatest {x | x ∈ (p :: ps).map f} (colMax f (p :: ps)) := by
  obtain ⟨h1, h2, h3⟩ := foldl_max_spec (ps.map f) (f p)
  simp only [colMax]
  constructor
  · rw [Set.mem_setOf_eq, List.map_cons, List.mem_cons]
    rcases h3 with h | h
    · exact Or.inl h
    · exact Or.inr h
  · intro y hy
    rw [Set.mem_setOf_eq, List.map_cons, List.mem_cons] at hy
    rcases hy with rfl | hy
    · exact h1
    · exact h2 y hy

theorem colMax_perm (f : SurveyPoint → ℝ) {l₁ l₂ : List SurveyPoint}
    (hp : List.Perm l₁ l₂) (h : l₁ ≠ []) : colMax f l₁ = colMax f l₂ := by
  cases l₁ with
  | nil => exact absurd rfl h
  | cons p₁ ps₁ =>
    cases l₂ with
    | nil => exact absurd hp.eq_nil (by simp)
    | cons p₂ ps₂ =>
      have hs : {x | x ∈ (p₁ :: ps₁).map f} = {x | x ∈ (p₂ :: ps₂).map f} := by
        ext x
        simp only [Set.mem_setOf_eq]
        exact (hp.map f).mem_iff
      exact (colMax_isGreatest f p₁ ps₁).unique (hs ▸ colMax_isGreatest f p₂ ps₂)

theorem arctan_nonpos_of {t : ℝ} (h : t ≤ 0) : Real.arctan t ≤ 0 := by
  have h1 : Real.arctan t ≤ Real.arctan 0 := Real.arctan_strictMono.monotone h
  rwa [Real.arctan_zero] at h1

theorem arctan_nonneg_of {t : ℝ} (h : 0 ≤ t) : 0 ≤ Real.arctan t := by
  have h1 : Real.arctan 0 ≤ Real.arctan t := Real.arctan_strictMono.monotone h
  rwa [Real.arctan_zero] at h1

theorem arctan2_range (y x : ℝ) : -Real.pi < arctan2 y x ∧ arctan2 y x ≤ Real.pi := by
  have hpi := Real.pi_pos
  unfold arctan2
  split_ifs with hx hx2 hy hy1 hy2
  · have h1 := Real.arctan_lt_pi_div_two (y / x)
    have h2 := Real.neg_pi_div_two_lt_arctan (y / x)
    exact ⟨by linarith, by linarith⟩
  · have harg : y / x ≤ 0 := div_nonpos_iff.mpr (Or.inl ⟨hy, hx2.le⟩)
    have h1 := arctan_nonpos_of harg
    have h2 := Real.neg_pi_div_two_lt_arctan (y / x)
    exact ⟨by linarith, by linarith⟩
  · have harg : 0 < y / x := div_pos_iff.mpr (Or.inr ⟨lt_of_not_ge hy, hx2⟩)
    have h1 := Real.arctan_lt_pi_div_two (y / x)
    have h2 : Real.arctan 0 < Real.arctan (y / x) := Real.arctan_strictMono harg
    rw [Real.arctan_zero] at h2
    exact ⟨by linarith, by linarith⟩
  · exact ⟨by linarith, by linarith⟩
  · exact ⟨by linarith, by linarith⟩
  · exact ⟨by linarith, by linarith⟩

theorem degrees_range {w : ℝ} (h1 : -Real.pi < w) (h2 : w ≤ Real.pi) :
    -180 < degrees w ∧ degrees w ≤ 180 := by
  have hpi := Real.pi_pos
  unfold degrees
  constructor
  · rw [lt_div_iff₀ hpi]
    linarith
  · rw [div_le_iff₀ hpi]
    linarith

theorem pyMaxStep_some (a b : ℝ) : pyMaxStep (some a) (some b) = some (max a b) := by
  simp only [pyMaxStep]
  rcases le_or_lt b a with hba | hba
  · rw [if_neg (not_lt.mpr hba), max_eq_left hba]
  · rw [if_pos hba, max_eq_right hba.le]

theorem foldl_pyMaxStep_some (xs : List (Option ℝ)) (a : ℝ) (h : none ∉ xs) :
    xs.foldl pyMaxStep (some a) = some (xs.reduceOption.foldl max a) := by
  induction xs generalizing a with
  | nil => simp [List.reduceOption_nil]
  | cons x xs ih =>
    have hx : x ≠ none := fun hx => h (hx ▸ List.mem_cons_self x xs)
    obtain ⟨b, rfl⟩ := Option.ne_none_iff_exists'.mp hx
    have hxs : none ∉ xs := fun hm => h (List.mem_cons_of_mem _ hm)
    rw [List.foldl_cons, pyMaxStep_some, ih (max a b) hxs,
      List.reduceOption_cons_of_some, List.foldl_cons]

theorem pyMax_no_nan (x : Option ℝ) (xs : List (Option ℝ)) (h : none ∉ x :: xs) :
    pyMax (x :: xs) = some (listMax ((x :: xs).reduceOption)) := by
  have hx : x ≠ none := fun hx => h (hx ▸ List.mem_cons_self x xs)
  obtain ⟨a, rfl⟩ := Option.ne_none_iff_exists'.mp hx
  have hxs : none ∉ xs := fun hm => h (List.mem_cons_of_mem _ hm)
  rw [pyMax, foldl_pyMaxStep_some xs a hxs, List.reduceOption_cons_of_some]
  rfl

theorem reduceOption_length_no_none (s : List (Option ℝ)) (h : none ∉ s) :
    s.reduceOption.length = s.length := by
  induction s with
  | nil => rfl
  | cons x xs ih =>
    have hx : x ≠ none := fun hx => h (hx ▸ List.mem_cons_self x xs)
    obtain ⟨a, rfl⟩ := Option.ne_none_iff_exists'.mp hx
    have hxs : none ∉ xs := fun hm => h (List.mem_cons_of_mem _ hm)
    rw [List.reduceOption_cons_of_some, List.length_cons, List.length_cons, ih hxs]

theorem dlsSeries_cons2 (p q : SurveyPoint) (rest : List SurveyPoint) :
    dlsSeries (p :: q :: rest) =
      (if 0 < q.md - p.md then [intervalDLS p q] else []) ++ dlsSeries (q :: rest) := rfl

theorem dlsSeries_length_le (l : List SurveyPoint) :
    (dlsSeries l).length ≤ l.length - 1 := by
  induction l with
  | nil => simp [dlsSeries]
  | cons p ps ih =>
    cases ps with
    | nil => simp [dlsSeries]
    | cons q rest =>
      rw [dlsSeries_cons2, List.length_append]
      simp only [List.length_cons] at ih ⊢
      split_ifs with h
      · simp only [List.length_cons, List.length_nil]
        omega
      · simp only [List.length_nil]
        omega

theorem dlsSeries_nil : dlsSeries [] = [] := rfl

theorem dlsSeries_single (p : SurveyPoint) : dlsSeries [p] = [] := rfl

theorem listMax_isGreatest (v : ℝ) (vs : List ℝ) :
    IsGreatest {x | x ∈ v :: vs} (listMax (v :: vs)) := by
  obtain ⟨h1, h2, h3⟩ := foldl_max_spec vs v
  simp only [listMax]
  constructor
  · rw [Set.mem_setOf_eq, List.mem_cons]
    rcases h3 with h | h
    · exact Or.inl h
    · exact Or.inr h
  · intro y hy
    rw [Set.mem_setOf_eq, List.mem_cons] at hy
    rcases hy with rfl | hy
    · exact h1
    · exact h2 y hy

theorem dlsSeries_length_chain (l : List SurveyPoint)
    (hc : List.Chain' (fun a b => 0 < b.md - a.md) l) :
    (dlsSeries l).length = l.length - 1 := by
  induction l with
  | nil => simp [dlsSeries]
  | cons p ps ih =>
    cases ps with
    | nil => simp [dlsSeries]
    | cons q rest =>
      rw [List.chain'_cons] at hc
      rw [dlsSeries_cons2, List.length_append, if_pos hc.1]
      have h2 := ih hc.2
      simp only [List.length_cons] at h2 ⊢
      simp only [List.length_cons, List.length_nil]
      omega

/-! Claim theorems. -/

/-- C1 counterexample: on [(md 0, north 3, east 4), (md 10, north 0, east 0)]
the maximum-md row is the second point, whose offsets are both 0, yet
analyze returns total_displacement 5 - the norm of the column-wise maxima
of north and east, not of the max-md row. -/
theorem C1_counterexample :
    (analyze [(⟨0, 0, 0, 0, 3, 4⟩ : SurveyPoint), ⟨10, 0, 0, 0, 0, 0⟩]).map
        TrajectoryAnalysis.total_displacement = some 5 ∧
      specTotalDisplacement (⟨0, 0, 0, 0, 3, 4⟩ : SurveyPoint) [⟨10, 0, 0, 0, 0, 0⟩] = 0 ∧
      (5 : ℝ) ≠ 0 := by
  refine ⟨?_, ?_, by norm_num⟩
  · simp only [analyze, Option.map_some', colMax, List.map_cons, List.map_nil,
      List.foldl_cons, List.foldl_nil]
    rw [show max (3 : ℝ) 0 = 3 from max_eq_left (by norm_num),
      show max (4 : ℝ) 0 = 4 from max_eq_left (by norm_num)]
    rw [show (3 : ℝ) ^ 2 + 4 ^ 2 = 5 ^ 2 by norm_num]
    rw [Real.sqrt_sq (by norm_num : (0 : ℝ) ≤ 5)]
  · simp only [specTotalDisplacement, maxMdPoint, List.foldl_cons, List.foldl_nil]
    rw [if_pos (show (⟨0, 0, 0, 0, 3, 4⟩ : SurveyPoint).md <
      (⟨10, 0, 0, 0, 0, 0⟩ : SurveyPoint).md from by norm_num)]
    norm_num

/-- C1 amended: for every non-empty sequence, total_displacement equals
sqrt(maxN^2 + maxE^2) where maxN and maxE are the column-wise maxima of
the north column and of the east column (the greatest element of each),
not the north/east of the single maximum-md row. -/
theorem C1_total_displacement_columnwise (p : SurveyPoint) (ps : List SurveyPoint) :
    (analyze (p :: ps)).map TrajectoryAnalysis.total_displacement =
        some (Real.sqrt (colMax SurveyPoint.north (p :: ps) ^ 2 +
          colMax SurveyPoint.east (p :: ps) ^ 2)) ∧
      IsGreatest {x | x ∈ (p :: ps).map SurveyPoint.north}
        (colMax SurveyPoint.north (p :: ps)) ∧
      IsGreatest {x | x ∈ (p :: ps).map SurveyPoint.east}
        (colMax SurveyPoint.east (p :: ps)) :=
  ⟨by simp [analyze], colMax_isGreatest _ p ps, colMax_isGreatest _ p ps⟩

/-- C3 counterexample: a single point with north 0, east -1 gives
closure_azimuth -90, which is not in [0, 360): the source applies no
normalization to degrees(atan2(east, north)). -/
theorem C3_counterexample :
    (analyze [(⟨0, 0, 0, 0, 0, -1⟩ : SurveyPoint)]).map
        TrajectoryAnalysis.closure_azimuth = some (-90) ∧
      ¬ (0 : ℝ) ≤ -90 := by
  refine ⟨?_, by norm_num⟩
  simp only [analyze, Option.map_some', lastPoint, List.getLast_singleton, degrees, arctan2]
  norm_num
  rw [div_eq_iff Real.pi_ne_zero]
  ring

/-- C3 amended: closure_azimuth equals degrees(atan2(east_last, north_last))
of the literal last point, with no normalization: its range is (-180, 180],
so it can be negative (the claimed interval [0, 360) does not hold). -/
theorem C3_closure_azimuth_unnormalized (p : SurveyPoint) (ps : List SurveyPoint) :
    (analyze (p :: ps)).map TrajectoryAnalysis.closure_azimuth =
        some (degrees (arctan2 (lastPoint p ps).east (lastPoint p ps).north)) ∧
      -180 < degrees (arctan2 (lastPoint p ps).east (lastPoint p ps).north) ∧
      degrees (arctan2 (lastPoint p ps).east (lastPoint p ps).north) ≤ 180 := by
  obtain ⟨h1, h2⟩ := arctan2_range (lastPoint p ps).east (lastPoint p ps).north
  obtain ⟨h3, h4⟩ := degrees_range h1 h2
  exact ⟨by simp [analyze], h3, h4⟩

/-- C4 counterexample: on the empty list analyze raises (modelled none)
rather than returning zeros, and on the one-point list with azi 45 it
returns max_azimuth 45, not 0. -/
theorem C4_counterexample :
    analyze ([] : List SurveyPoint) = none ∧
      (analyze [(⟨0, 0, 0, 45, 0, 0⟩ : SurveyPoint)]).map
        TrajectoryAnalysis.max_azimuth = some 45 ∧
      (45 : ℝ) ≠ 0 := by
  refine ⟨rfl, ?_, by norm_num⟩
  simp [analyze, colMax]

/-- C4 amended: the empty sequence makes analyze fail (the pandas frame
built from an empty list has no columns, so the handler raises); a
one-point sequence completes with max_dls = avg_dls = 0, but
max_azimuth is the point's own azimuth and closure_azimuth is
degrees(atan2(east, north)) of that point, not 0. -/
theorem C4_degenerate_inputs (p : SurveyPoint) :
    analyze ([] : List SurveyPoint) = none ∧
      (analyze [p]).map TrajectoryAnalysis.max_dls = some (some 0) ∧
      (analyze [p]).map TrajectoryAnalysis.avg_dls = some (some 0) ∧
      (analyze [p]).map TrajectoryAnalysis.max_azimuth = some p.azi ∧
      (analyze [p]).map TrajectoryAnalysis.closure_azimuth =
        some (degrees (arctan2 p.east p.north)) ∧
      (analyze [p]).map TrajectoryAnalysis.point_count = some 1 := by
  refine ⟨rfl, ?_, ?_, ?_, ?_, ?_⟩ <;>
    simp [analyze, colMax, dlsSeries_single, aggMax, aggMean, lastPoint]

/-- C6 counterexample: azimuths 180 then 0 (both in the data-model range
[0, 360)) give a wrapped delta of exactly -180, which lies outside the
claimed half-open interval (-180, 180]. -/
theorem C6_counterexample :
    wrapAzi ((0 : ℝ) - 180) = -180 ∧ ¬ (-180 : ℝ) < wrapAzi ((0 : ℝ) - 180) := by
  have h : wrapAzi ((0 : ℝ) - 180) = -180 := by norm_num [wrapAzi]
  exact ⟨h, by rw [h]; norm_num⟩

/-- C6 amended: the azimuth delta used in the dogleg computation is
azi2 - azi1 corrected by the source's two sequential branches (subtract
360 when > 180, then add 360 when < -180); for azimuths in the
data-model range [0, 360) the result lies in the closed interval
[-180, 180] (the endpoint -180 is attained, so the open-below interval
of the claim is off by one endpoint), and the pair 350 then 10 yields
20, not -340. -/
theorem C6_azimuth_wrap (a1 a2 : ℝ) (h1 : 0 ≤ a1) (h1' : a1 < 360)
    (h2 : 0 ≤ a2) (h2' : a2 < 360) :
    (-180 ≤ wrapAzi (a2 - a1) ∧ wrapAzi (a2 - a1) ≤ 180) ∧
      (∀ d : ℝ, wrapAzi d =
        if 180 < d then d - 360 else if d < -180 then d + 360 else d) ∧
      wrapAzi ((10 : ℝ) - 350) = 20 := by
  refine ⟨?_, ?_, by norm_num [wrapAzi]⟩
  · simp only [wrapAzi]
    split_ifs <;> constructor <;> linarith
  · intro d
    simp only [wrapAzi]
    split_ifs <;> linarith

/-- C6 witness: the amended wrap statement instantiated at the azimuth
pair (350, 10). -/
theorem C6_witness :
    ((0 : ℝ) ≤ 350 ∧ (350 : ℝ) < 360 ∧ (0 : ℝ) ≤ 10 ∧ (10 : ℝ) < 360) ∧
      -180 ≤ wrapAzi ((10 : ℝ) - 350) ∧ wrapAzi ((10 : ℝ) - 350) ≤ 180 :=
  ⟨⟨by norm_num, by norm_num, by norm_num, by norm_num⟩,
    (C6_azimuth_wrap 350 10 (by norm_num) (by norm_num) (by norm_num) (by norm_num)).1⟩

/-- C7: the DLS series of an n-point sequence has at most n-1 entries,
exactly n-1 when every consecutive measured-depth delta is positive, and
an interval with non-positive delta contributes no entry. -/
theorem C7_series_length (l : List SurveyPoint) :
    (dlsSeries l).length ≤ l.length - 1 ∧
      (List.Chain' (fun a b => 0 < b.md - a.md) l →
        (dlsSeries l).length = l.length - 1) ∧
      (∀ p q : SurveyPoint, ∀ rest : List SurveyPoint, ¬ 0 < q.md - p.md →
        dlsSeries (p :: q :: rest) = dlsSeries (q :: rest)) := by
  refine ⟨dlsSeries_length_le l, dlsSeries_length_chain l, ?_⟩
  intro p q rest h
  rw [dlsSeries_cons2, if_neg h, List.nil_append]

/-- C7 witness: a concrete two-point survey with strictly increasing md
has a series of exactly one entry. -/
theorem C7_witness :
    (dlsSeries [(⟨0, 0, 0, 0, 0, 0⟩ : SurveyPoint), ⟨100, 99, 5, 10, 1, 2⟩]).length =
      [(⟨0, 0, 0, 0, 0, 0⟩ : SurveyPoint), ⟨100, 99, 5, 10, 1, 2⟩].length - 1 :=
  (C7_series_length _).2.1 (List.chain'_cons.mpr
    ⟨by show (0 : ℝ) < 100 - 0; norm_num, List.chain'_singleton _⟩)

/-- C2, evaluated at the failing input: points (md 0, inc 90, azi 0) and
(md 100, inc 90, azi 180) give delta_inc = 0 and an arccos argument of 3,
which exceeds 1; the source has no clamp, so the interval's dogleg is NaN
(none), the series is [NaN] and max_dls is NaN - not the claimed 0. -/
theorem C2_arccos_overflow_nan :
    doglegArg (⟨0, 0, 90, 0, 0, 0⟩ : SurveyPoint) ⟨100, 0, 90, 180, 0, 0⟩ = 3 ∧
      dlsSeries [(⟨0, 0, 90, 0, 0, 0⟩ : SurveyPoint), ⟨100, 0, 90, 180, 0, 0⟩] = [none] ∧
      (analyze [(⟨0, 0, 90, 0, 0, 0⟩ : SurveyPoint), ⟨100, 0, 90, 180, 0, 0⟩]).map
        TrajectoryAnalysis.max_dls = some none := by
  have harg : doglegArg (⟨0, 0, 90, 0, 0, 0⟩ : SurveyPoint) ⟨100, 0, 90, 180, 0, 0⟩ = 3 := by
    show Real.cos (radians ((90 : ℝ) - 90)) +
        Real.sin (radians (90 : ℝ)) * Real.sin (radians (90 : ℝ)) *
          (1 - Real.cos (radians (wrapAzi ((180 : ℝ) - 0)))) = 3
    have hw : wrapAzi ((180 : ℝ) - 0) = 180 := by norm_num [wrapAzi]
    have hr0 : radians ((90 : ℝ) - 90) = 0 := by simp [radians]
    have hr90 : radians (90 : ℝ) = Real.pi / 2 := by simp only [radians]; ring
    have hr180 : radians (180 : ℝ) = Real.pi := by
      simp only [radians]
      field_simp
    rw [hw, hr0, hr90, hr180, Real.cos_zero, Real.sin_pi_div_two, Real.cos_pi]
    norm_num
  have hentry : intervalDLS (⟨0, 0, 90, 0, 0, 0⟩ : SurveyPoint) ⟨100, 0, 90, 180, 0, 0⟩ =
      none := by
    simp only [intervalDLS, harg, npArccos]
    rw [if_pos (Or.inr (by norm_num : (1 : ℝ) < 3))]
    rfl
  have hseries : dlsSeries [(⟨0, 0, 90, 0, 0, 0⟩ : SurveyPoint), ⟨100, 0, 90, 180, 0, 0⟩] =
      [none] := by
    rw [dlsSeries_cons2, if_pos (show (0 : ℝ) <
      (⟨100, 0, 90, 180, 0, 0⟩ : SurveyPoint).md - (⟨0, 0, 90, 0, 0, 0⟩ : SurveyPoint).md
      from by norm_num), hentry]
    rfl
  refine ⟨harg, hseries, ?_⟩
  simp [analyze, hseries, aggMax, pyMax]

/-- C5: for an adjacent pair the loop processes (delta_md > 0), when the
arccos argument lies in [-1, 1], the appended severity is exactly
degrees(arccos(cos(radians delta_inc) + sin(radians inc1) * sin(radians inc2)
* (1 - cos(radians delta_azi_wrapped)))) / delta_md * 100. -/
theorem C5_dogleg_formula (p q : SurveyPoint) (rest : List SurveyPoint)
    (hmd : 0 < q.md - p.md)
    (hlo : -1 ≤ Real.cos (radians (q.inc - p.inc)) +
      Real.sin (radians p.inc) * Real.sin (radians q.inc) *
        (1 - Real.cos (radians (wrapAzi (q.azi - p.azi)))))
    (hhi : Real.cos (radians (q.inc - p.inc)) +
      Real.sin (radians p.inc) * Real.sin (radians q.inc) *
        (1 - Real.cos (radians (wrapAzi (q.azi - p.azi)))) ≤ 1) :
    dlsSeries (p :: q :: rest) =
      some (Real.arccos (Real.cos (radians (q.inc - p.inc)) +
          Real.sin (radians p.inc) * Real.sin (radians q.inc) *
            (1 - Real.cos (radians (wrapAzi (q.azi - p.azi))))) * 180 / Real.pi /
          (q.md - p.md) * 100) :: dlsSeries (q :: rest) := by
  rw [dlsSeries_cons2, if_pos hmd]
  simp only [intervalDLS, npArccos, doglegArg]
  rw [if_neg]
  · rfl
  · push_neg
    exact ⟨by linarith, by linarith⟩

/-- C5 witness: a vertical hold (both points inc 0, azi 0) over 100 md
units: the argument is 1 and the single series entry is 0. -/
theorem C5_witness :
    ((0 : ℝ) < (100 : ℝ) - 0 ∧
      -1 ≤ Real.cos (radians ((0 : ℝ) - 0)) +
        Real.sin (radians (0 : ℝ)) * Real.sin (radians (0 : ℝ)) *
          (1 - Real.cos (radians (wrapAzi ((0 : ℝ) - 0)))) ∧
      Real.cos (radians ((0 : ℝ) - 0)) +
        Real.sin (radians (0 : ℝ)) * Real.sin (radians (0 : ℝ)) *
          (1 - Real.cos (radians (wrapAzi ((0 : ℝ) - 0)))) ≤ 1) ∧
      dlsSeries [(⟨0, 0, 0, 0, 0, 0⟩ : SurveyPoint), ⟨100, 0, 0, 0, 0, 0⟩] = [some 0] := by
  have harg : Real.cos (radians ((0 : ℝ) - 0)) +
      Real.sin (radians (0 : ℝ)) * Real.sin (radians (0 : ℝ)) *
        (1 - Real.cos (radians (wrapAzi ((0 : ℝ) - 0)))) = 1 := by
    norm_num [radians, wrapAzi]
  refine ⟨⟨by norm_num, by rw [harg]; norm_num, by rw [harg]⟩, ?_⟩
  have h := C5_dogleg_formula (⟨0, 0, 0, 0, 0, 0⟩ : SurveyPoint) ⟨100, 0, 0, 0, 0, 0⟩ []
    (by norm_num) (by rw [harg]; norm_num) (by rw [harg])
  rw [h, harg, dlsSeries_single, Real.arccos_one]
  norm_num

/-- C8: for a non-empty input, an empty DLS series yields
max_dls = avg_dls = 0, and a non-empty NaN-free series yields max_dls
equal to its greatest element and avg_dls equal to its sum divided by
its length. -/
theorem C8_dls_stats (p : SurveyPoint) (ps : List SurveyPoint) :
    (dlsSeries (p :: ps) = [] →
      (analyze (p :: ps)).map TrajectoryAnalysis.max_dls = some (some 0) ∧
        (analyze (p :: ps)).map TrajectoryAnalysis.avg_dls = some (some 0)) ∧
      (dlsSeries (p :: ps) ≠ [] → none ∉ dlsSeries (p :: ps) →
        (analyze (p :: ps)).map TrajectoryAnalysis.max_dls =
            some (some (listMax ((dlsSeries (p :: ps)).reduceOption))) ∧
          IsGreatest {x | x ∈ (dlsSeries (p :: ps)).reduceOption}
            (listMax ((dlsSeries (p :: ps)).reduceOption)) ∧
          (analyze (p :: ps)).map TrajectoryAnalysis.avg_dls =
            some (some (((dlsSeries (p :: ps)).reduceOption).sum /
              ((dlsSeries (p :: ps)).reduceOption).length))) := by
  constructor
  · intro hs
    constructor <;> simp [analyze, hs, aggMax, aggMean]
  · intro hs hn
    obtain ⟨x, xs, hxxs⟩ : ∃ x xs, dlsSeries (p :: ps) = x :: xs := by
      cases hq : dlsSeries (p :: ps) with
      | nil => exact absurd hq hs
      | cons x xs => exact ⟨x, xs, rfl⟩
    rw [hxxs] at hn
    have hx : x ≠ none := fun hx => hn (hx ▸ List.mem_cons_self x xs)
    obtain ⟨a, rfl⟩ := Option.ne_none_iff_exists'.mp hx
    have hmax : aggMax (some a :: xs) = some (listMax ((some a :: xs).reduceOption)) := by
      rw [aggMax, pyMax_no_nan _ _ hn]
    have hgr : IsGreatest {x | x ∈ (some a :: xs).reduceOption}
        (listMax ((some a :: xs).reduceOption)) := by
      rw [List.reduceOption_cons_of_some]
      exact listMax_isGreatest a xs.reduceOption
    have hlen : ((some a :: xs).reduceOption).length = (some a :: xs).length :=
      reduceOption_length_no_none _ hn
    have hmean : aggMean (some a :: xs) =
        some (((some a :: xs).reduceOption).sum / ((some a :: xs).reduceOption).length) := by
      rw [aggMean, npMean, if_neg hn, hlen]
    refine ⟨?_, ?_, ?_⟩
    · rw [hxxs]
      simp [analyze, hxxs, hmax]
    · rw [hxxs]
      exact hgr
    · rw [hxxs]
      simp [analyze, hxxs, hmean]

/-- C8 witness: a two-point sequence with identical md has an empty DLS
series and both statistics 0. -/
theorem C8_witness :
    dlsSeries [(⟨0, 0, 0, 0, 0, 0⟩ : SurveyPoint), ⟨0, 50, 10, 20, 0, 0⟩] = [] ∧
      (analyze [(⟨0, 0, 0, 0, 0, 0⟩ : SurveyPoint), ⟨0, 50, 10, 20, 0, 0⟩]).map
          TrajectoryAnalysis.max_dls = some (some 0) ∧
      (analyze [(⟨0, 0, 0, 0, 0, 0⟩ : SurveyPoint), ⟨0, 50, 10, 20, 0, 0⟩]).map
          TrajectoryAnalysis.avg_dls = some (some 0) := by
  have hs : dlsSeries [(⟨0, 0, 0, 0, 0, 0⟩ : SurveyPoint), ⟨0, 50, 10, 20, 0, 0⟩] = [] := by
    rw [dlsSeries_cons2, if_neg (show ¬ (0 : ℝ) <
      (⟨0, 50, 10, 20, 0, 0⟩ : SurveyPoint).md - (⟨0, 0, 0, 0, 0, 0⟩ : SurveyPoint).md
      from by norm_num), dlsSeries_single, List.nil_append]
  exact ⟨hs, ((C8_dls_stats _ _).1 hs).1, ((C8_dls_stats _ _).1 hs).2⟩

/-- C9: the end-to-end example [(md 0, tvd 0, inc 0, azi 0, n 0, e 0),
(md 100, tvd 99, inc 5, azi 10, n 1, e 2)]: point_count 2, total_length
100, vertical_section 99, a one-entry DLS series (value 5), and
max_dls = avg_dls = that entry. -/
theorem C9_end_to_end :
    (analyze [(⟨0, 0, 0, 0, 0, 0⟩ : SurveyPoint), ⟨100, 99, 5, 10, 1, 2⟩]).map
        TrajectoryAnalysis.point_count = some 2 ∧
      (analyze [(⟨0, 0, 0, 0, 0, 0⟩ : SurveyPoint), ⟨100, 99, 5, 10, 1, 2⟩]).map
        TrajectoryAnalysis.total_length = some 100 ∧
      (analyze [(⟨0, 0, 0, 0, 0, 0⟩ : SurveyPoint), ⟨100, 99, 5, 10, 1, 2⟩]).map
        TrajectoryAnalysis.vertical_section = some 99 ∧
      dlsSeries [(⟨0, 0, 0, 0, 0, 0⟩ : SurveyPoint), ⟨100, 99, 5, 10, 1, 2⟩] = [some 5] ∧
      (analyze [(⟨0, 0, 0, 0, 0, 0⟩ : SurveyPoint), ⟨100, 99, 5, 10, 1, 2⟩]).map
        TrajectoryAnalysis.max_dls = some (some 5) ∧
      (analyze [(⟨0, 0, 0, 0, 0, 0⟩ : SurveyPoint), ⟨100, 99, 5, 10, 1, 2⟩]).map
        TrajectoryAnalysis.avg_dls = some (some 5) := by
  have harg : doglegArg (⟨0, 0, 0, 0, 0, 0⟩ : SurveyPoint) ⟨100, 99, 5, 10, 1, 2⟩ =
      Real.cos (radians 5) := by
    show Real.cos (radians ((5 : ℝ) - 0)) +
        Real.sin (radians (0 : ℝ)) * Real.sin (radians (5 : ℝ)) *
          (1 - Real.cos (radians (wrapAzi ((10 : ℝ) - 0)))) = Real.cos (radians 5)
    norm_num [radians]
  have hr5lo : (0 : ℝ) ≤ radians 5 := by
    simp only [radians]
    positivity
  have hr5hi : radians 5 ≤ Real.pi := by
    simp only [radians]
    linarith [Real.pi_pos]
  have hdom : ¬ (Real.cos (radians 5) < -1 ∨ 1 < Real.cos (radians 5)) := by
    push_neg
    exact ⟨Real.neg_one_le_cos _, Real.cos_le_one _⟩
  have hentry : intervalDLS (⟨0, 0, 0, 0, 0, 0⟩ : SurveyPoint) ⟨100, 99, 5, 10, 1, 2⟩ =
      some 5 := by
    simp only [intervalDLS, harg, npArccos, if_neg hdom, Option.map_some']
    rw [Real.arccos_cos hr5lo hr5hi]
    have hval : radians 5 * 180 / Real.pi / ((100 : ℝ) - 0) * 100 = 5 := by
      simp only [radians]
      field_simp
    exact congrArg some hval
  have hseries : dlsSeries [(⟨0, 0, 0, 0, 0, 0⟩ : SurveyPoint), ⟨100, 99, 5, 10, 1, 2⟩] =
      [some 5] := by
    rw [dlsSeries_cons2, if_pos (show (0 : ℝ) <
      (⟨100, 99, 5, 10, 1, 2⟩ : SurveyPoint).md - (⟨0, 0, 0, 0, 0, 0⟩ : SurveyPoint).md
      from by norm_num), hentry, dlsSeries_single, List.append_nil]
  refine ⟨?_, ?_, ?_, hseries, ?_, ?_⟩
  · simp [analyze]
  · norm_num [analyze, colMax, max_def]
  · norm_num [analyze, colMax, max_def]
  · simp [analyze, hseries, aggMax, pyMax]
  · norm_num [analyze, hseries, aggMean, npMean]

/-- C10: total_length, total_displacement, max_inclination, max_azimuth,
vertical_section and point_count are invariant under permutation of the
input sequence: each is a column-wise maximum, a norm of column-wise
maxima, or the length. -/
theorem C10_perm_invariant (l₁ l₂ : List SurveyPoint) (hp : List.Perm l₁ l₂)
    (h : l₁ ≠ []) :
    (analyze l₁).map TrajectoryAnalysis.total_length =
        (analyze l₂).map TrajectoryAnalysis.total_length ∧
      (analyze l₁).map TrajectoryAnalysis.total_displacement =
        (analyze l₂).map TrajectoryAnalysis.total_displacement ∧
      (analyze l₁).map TrajectoryAnalysis.max_inclination =
        (analyze l₂).map TrajectoryAnalysis.max_inclination ∧
      (analyze l₁).map TrajectoryAnalysis.max_azimuth =
        (analyze l₂).map TrajectoryAnalysis.max_azimuth ∧
      (analyze l₁).map TrajectoryAnalysis.vertical_section =
        (analyze l₂).map TrajectoryAnalysis.vertical_section ∧
      (analyze l₁).map TrajectoryAnalysis.point_count =
        (analyze l₂).map TrajectoryAnalysis.point_count := by
  cases l₁ with
  | nil => exact absurd rfl h
  | cons p₁ ps₁ =>
    cases l₂ with
    | nil => exact absurd hp.eq_nil (by simp)
    | cons p₂ ps₂ =>
      have hmd := colMax_perm SurveyPoint.md hp (by simp)
      have hn := colMax_perm SurveyPoint.north hp (by simp)
      have he := colMax_perm SurveyPoint.east hp (by simp)
      have hinc := colMax_perm SurveyPoint.inc hp (by simp)
      have hazi := colMax_perm SurveyPoint.azi hp (by simp)
      have htvd := colMax_perm SurveyPoint.tvd hp (by simp)
      refine ⟨?_, ?_, ?_, ?_, ?_, ?_⟩ <;>
        simp [analyze, hmd, hn, he, hinc, hazi, htvd, hp.length_eq]

/-- C10 witness: swapping a concrete two-point survey leaves
total_length unchanged. -/
theorem C10_witness :
    List.Perm [(⟨0, 0, 0, 0, 3, 4⟩ : SurveyPoint), ⟨10, 20, 30, 40, 0, 0⟩]
        [(⟨10, 20, 30, 40, 0, 0⟩ : SurveyPoint), ⟨0, 0, 0, 0, 3, 4⟩] ∧
      [(⟨0, 0, 0, 0, 3, 4⟩ : SurveyPoint), ⟨10, 20, 30, 40, 0, 0⟩] ≠ [] ∧
      (analyze [(⟨0, 0, 0, 0, 3, 4⟩ : SurveyPoint), ⟨10, 20, 30, 40, 0, 0⟩]).map
          TrajectoryAnalysis.total_length =
        (analyze [(⟨10, 20, 30, 40, 0, 0⟩ : SurveyPoint), ⟨0, 0, 0, 0, 3, 4⟩]).map
          TrajectoryAnalysis.total_length :=
  ⟨List.Perm.swap _ _ _, by simp,
    (C10_perm_invariant _ _ (List.Perm.swap _ _ _) (by simp)).1⟩

end WellTest
